import Mathlib

/-!
Verification development for the nbgrader distribution (`assign`),
grading (`autograde`) and collection (`zip_collect`) pipelines.

The definitions below are a shallow embedding of the code in
`nbgrader/apps/assignapp.py` and `nbgrader/apps/autogradeapp.py`, together
with a model of the collection pipeline whose behaviour is pinned by
`nbgrader/tests/apps/test_nbgrader_zip_collect.py` (the collection app
itself is not part of the sources, so it is modelled from the spec and
the expectations recorded in those tests).
-/

set_option autoImplicit false

namespace Nbgrader

/-- The transformation stages (preprocessors) named by the two apps.
Each stage is represented by a tag; the pipelines below are ordered
lists of these tags, exactly as registered in the source. -/
inductive Preprocessor where
  | IncludeHeaderFooter
  | LockCells
  | ClearSolutions
  | ClearOutput
  | CheckCellMetadata
  | ComputeChecksums
  | SaveCells
  | ClearHiddenTests
  | AssignLatePenalties
  | DeduplicateIds
  | OverwriteCells
  | SaveAutoGrades
  | Execute
  | LimitOutput
  | OverwriteKernelspec
  deriving DecidableEq, Repr

namespace AssignApp

/-- Embedding of `AssignApp.preprocessors` from `assignapp.py`: the ordered stage list
of the distribution pass. -/
def preprocessors : List Preprocessor :=
  [ .IncludeHeaderFooter,
    .LockCells,
    .ClearSolutions,
    .ClearOutput,
    .CheckCellMetadata,
    .ComputeChecksums,
    .SaveCells,
    .ClearHiddenTests,
    .ComputeChecksums,
    .CheckCellMetadata ]

end AssignApp

namespace AutogradeApp

/-- Embedding of `AutogradeApp.sanitize_preprocessors` from `autogradeapp.py`. -/
def sanitize_preprocessors : List Preprocessor :=
  [ .ClearOutput,
    .DeduplicateIds,
    .OverwriteKernelspec,
    .OverwriteCells,
    .CheckCellMetadata ]

/-- Embedding of `AutogradeApp.autograde_preprocessors` from `autogradeapp.py`. -/
def autograde_preprocessors : List Preprocessor :=
  [ .Execute,
    .LimitOutput,
    .SaveAutoGrades,
    .AssignLatePenalties,
    .CheckCellMetadata ]

/-- The mutable per-app state relevant to `convert_single_notebook`:
the `_sanitizing` flag and the trace of preprocessors applied so far
(in application order). -/
structure AGState where
  sanitizing : Bool
  applied : List Preprocessor
  deriving DecidableEq, Repr

/-- Errors raised while converting a single notebook. -/
inductive AGErr where
  | stageError
  deriving DecidableEq, Repr

/-- One call of the base class `convert_single_notebook`: the registered
preprocessors `pps` are applied in order.  `outcome = none` means the
conversion succeeds (all stages applied); `outcome = some k` means a
stage raises after `k` stages have been applied, and the exception
propagates. -/
def runBaseConvert (pps : List Preprocessor) (outcome : Option Nat)
    (s : AGState) : Option AGErr × AGState :=
  match outcome with
  | none => (none, { s with applied := s.applied ++ pps })
  | some k => (some .stageError, { s with applied := s.applied ++ pps.take k })

/-- Embedding of `AutogradeApp.convert_single_notebook` from `autogradeapp.py`:
set `_sanitizing := true`, re-register the sanitize preprocessors and run
the base conversion; then set `_sanitizing := false`, re-register the
autograde preprocessors and run the base conversion inside
`try ... finally self._sanitizing = True`.  `sanOutcome` and `agOutcome`
say whether (and where) each base conversion raises. -/
def convert_single_notebook (sanOutcome agOutcome : Option Nat)
    (s : AGState) : Option AGErr × AGState :=
  let s1 := { s with sanitizing := true }
  match runBaseConvert sanitize_preprocessors sanOutcome s1 with
  | (some e, s2) => (some e, s2)
  | (none, s2) =>
    let s3 := { s2 with sanitizing := false }
    let r := runBaseConvert autograde_preprocessors agOutcome s3
    (r.1, { r.2 with sanitizing := true })

/-- Embedding of `AutogradeApp._input_directory` from `autogradeapp.py`: the
submitted directory while sanitizing, the autograded directory
otherwise.  The directory names are the `CourseDirectory` defaults. -/
def input_directory (s : AGState) : String :=
  if s.sanitizing then "submitted" else "autograded"

end AutogradeApp

end Nbgrader

namespace Nbgrader

/-- A notebook record in the gradebook is identified by its name within
an assignment; an assignment has a name, an optional due date (seconds)
and its list of notebook names. -/
structure Assignment where
  name : String
  duedate : Option Int
  notebooks : List String
  deriving DecidableEq, Repr

/-- A submission row: one per (assignment, student), with an optional
timestamp (seconds). -/
structure Submission where
  assignment_id : String
  student_id : String
  timestamp : Option Int
  deriving DecidableEq, Repr

/-- Modelled from the spec: the external gradebook store (`nbgrader.api`
is not part of the sources; §6 of the spec gives its facade), holding
assignments, students and submissions. -/
structure Gradebook where
  assignments : List Assignment
  students : List String
  submissions : List Submission
  deriving DecidableEq, Repr

/-- Modelled from the spec: the error kind raised by the gradebook's
`find_*` calls when the entity is absent. -/
inductive DbErr where
  | missingEntry
  deriving DecidableEq, Repr

/-- Modelled from the spec: `Gradebook.find_assignment` returns the
assignment or fails with `MissingEntry`. -/
def Gradebook.find_assignment (gb : Gradebook) (assignment_id : String) :
    Except DbErr Assignment :=
  match gb.assignments.find? (fun a => a.name == assignment_id) with
  | some a => .ok a
  | none => .error .missingEntry

/-- Modelled from the spec: `Gradebook.find_student` returns the student
id or fails with `MissingEntry`. -/
def Gradebook.find_student (gb : Gradebook) (student_id : String) :
    Except DbErr String :=
  if gb.students.contains student_id then .ok student_id
  else .error .missingEntry

/-- Modelled from the spec: `Gradebook.find_notebook` succeeds exactly
when the notebook name is recorded under the assignment. -/
def Gradebook.find_notebook (gb : Gradebook) (notebook_id assignment_id : String) :
    Except DbErr String :=
  match gb.find_assignment assignment_id with
  | .error e => .error e
  | .ok a =>
    if a.notebooks.contains notebook_id then .ok notebook_id
    else .error .missingEntry

/-- Holds (as `true`) exactly when `find_notebook` succeeds. -/
def Gradebook.known_notebook (gb : Gradebook) (notebook_id assignment_id : String) :
    Bool :=
  match gb.find_notebook notebook_id assignment_id with
  | .ok _ => true
  | .error _ => false

/-- Modelled from the spec: `update_or_create_assignment` creates the
assignment when absent (the configured keyword arguments beyond the name
are not modelled: the repository's tests only ever pass the name). -/
def Gradebook.update_or_create_assignment (gb : Gradebook) (assignment_id : String) :
    Gradebook :=
  if gb.assignments.any (fun a => a.name == assignment_id) then gb
  else { gb with assignments := gb.assignments ++ [⟨assignment_id, none, []⟩] }

/-- Modelled from the spec: `update_or_create_student` creates the
student when absent. -/
def Gradebook.update_or_create_student (gb : Gradebook) (student_id : String) :
    Gradebook :=
  if gb.students.contains student_id then gb
  else { gb with students := gb.students ++ [student_id] }

/-- Replace the first submission with the same (assignment, student)
key, or append a new row. -/
def upsertSubmission : List Submission → Submission → List Submission
  | [], s => [s]
  | t :: ts, s =>
    if t.assignment_id == s.assignment_id && t.student_id == s.student_id
    then s :: ts
    else t :: upsertSubmission ts s

/-- Modelled from the spec: `update_or_create_submission` upserts the
(assignment, student) submission row with the given timestamp and
returns the row. -/
def Gradebook.update_or_create_submission (gb : Gradebook)
    (assignment_id student_id : String) (timestamp : Option Int) :
    Gradebook × Submission :=
  let s : Submission := ⟨assignment_id, student_id, timestamp⟩
  ({ gb with submissions := upsertSubmission gb.submissions s }, s)

/-- The stored submission row for an (assignment, student) pair. -/
def Gradebook.find_submission (gb : Gradebook) (assignment_id student_id : String) :
    Option Submission :=
  gb.submissions.find?
    (fun s => s.assignment_id == assignment_id && s.student_id == student_id)

/-- Modelled from the spec: `remove_notebook` deletes a notebook record
from an assignment. -/
def Gradebook.remove_notebook (gb : Gradebook) (notebook_id assignment_id : String) :
    Gradebook :=
  { gb with assignments := gb.assignments.map (fun a =>
      if a.name == assignment_id
      then { a with notebooks := a.notebooks.filter (fun n => n != notebook_id) }
      else a) }

/-- The submissions associated with an assignment (the ORM relationship
`assignment.submissions`). -/
def Gradebook.assignment_submissions (gb : Gradebook) (assignment_id : String) :
    List Submission :=
  gb.submissions.filter (fun s => s.assignment_id == assignment_id)

/-- Modelled from the spec: the lateness policy computes
`seconds_late = max(0, timestamp - duedate)`; with no timestamp (or no
due date) the lateness is zero. -/
def total_seconds_late (duedate timestamp : Option Int) : Int :=
  match duedate, timestamp with
  | some d, some t => max 0 (t - d)
  | _, _ => 0

/-- The due date recorded for an assignment, if any. -/
def duedate_of (gb : Gradebook) (assignment_id : String) : Option Int :=
  match gb.find_assignment assignment_id with
  | .ok a => a.duedate
  | .error _ => none

/-- The fatal errors (`self.fail`) the two apps raise during
`init_assignment`; the conflict guard's failure is the spec's
`ConflictingState` kind. -/
inductive AppErr where
  | conflictingState
  | missingAssignment
  | missingStudent
  | noNotebooks
  deriving DecidableEq, Repr

/-- Log messages relevant to the claims: the info line for a recorded
submission, the warning-level lateness report, and the warning for a
skipped unknown notebook. -/
inductive LogMsg where
  | infoSubmitted (assignment_id student_id : String) (timestamp : Int)
  | warningLate (assignment_id student_id : String) (seconds : Int)
  | warningSkip (notebook : String)
  deriving DecidableEq, Repr

/-- A source-tree notebook path as decomposed by the regexp in
`_clean_old_notebooks` (`source/{student_id}/{assignment_id}/{notebook_id}.ipynb`),
modelled structurally by its three captured components. -/
structure NbPath where
  student_id : String
  assignment_id : String
  notebook_id : String
  deriving DecidableEq, Repr

/-- The notebook ids among `self.notebooks` whose captured assignment
and student match the current ones (`new_notebook_ids` in
`_clean_old_notebooks`). -/
def new_notebook_ids (notebooks : List NbPath) (assignment_id student_id : String) :
    List String :=
  (notebooks.filter (fun n =>
    n.assignment_id == assignment_id && n.student_id == student_id)).map
    (fun n => n.notebook_id)

namespace AssignApp

/-- Embedding of `AssignApp._clean_old_notebooks` from `assignapp.py`: compare the
stored notebook ids with the new ones; if equal do nothing; otherwise
fail when the assignment has submissions; otherwise remove the stale
notebooks.  The result pairs the raised fatal error (if any) with the
gradebook afterwards. -/
def clean_old_notebooks (gb : Gradebook) (notebooks : List NbPath)
    (assignment_id student_id : String) : Option AppErr × Gradebook :=
  match gb.find_assignment assignment_id with
  | .error _ => (some .missingAssignment, gb)
  | .ok assignment =>
    let newIds := new_notebook_ids notebooks assignment_id student_id
    let oldIds := assignment.notebooks
    if oldIds.toFinset = newIds.toFinset then (none, gb)
    else if 0 < (gb.assignment_submissions assignment_id).length then
      (some .conflictingState, gb)
    else
      (none, (oldIds.filter (fun n => ¬ newIds.contains n)).foldl
        (fun g n => g.remove_notebook n assignment_id) gb)

/-- The configuration of `AssignApp` relevant to `init_assignment`:
the `db_assignments` names, the `--create` flag, the `--no-db` flag and
the `notebook_id` pattern. -/
structure Config where
  db_assignments : List String
  create_assignment : Bool
  no_database : Bool
  notebook_id : String
  deriving DecidableEq, Repr

/-- Embedding of `AssignApp.init_assignment` from `assignapp.py`: with the database
enabled, auto-create the assignment when it is listed in
`db_assignments` or `--create` is given, otherwise fail fast when
`find_assignment` raises `MissingEntry`; then (for the `*` notebook
pattern) clean old notebooks. -/
def init_assignment (cfg : Config) (notebooks : List NbPath)
    (assignment_id student_id : String) (gb : Gradebook) :
    Option AppErr × Gradebook :=
  if cfg.no_database then (none, gb)
  else
    if cfg.db_assignments.contains assignment_id || cfg.create_assignment then
      let gb1 := gb.update_or_create_assignment assignment_id
      if cfg.notebook_id == "*" then
        clean_old_notebooks gb1 notebooks assignment_id student_id
      else (none, gb1)
    else
      match gb.find_assignment assignment_id with
      | .error _ => (some .missingAssignment, gb)
      | .ok _ =>
        if cfg.notebook_id == "*" then
          clean_old_notebooks gb notebooks assignment_id student_id
        else (none, gb)

end AssignApp

/-- Split a character list on a separator character (the semantics of
`str.split(sep)`); defined by structural recursion so that concrete
instances evaluate. -/
def splitOnChar (c : Char) : List Char → List (List Char)
  | [] => [[]]
  | x :: xs =>
    let r := splitOnChar c xs
    if x = c then [] :: r
    else
      match r with
      | [] => [[x]]
      | y :: ys => (x :: y) :: ys

/-- Rejoin character-list pieces with a separator character. -/
def joinWithChar (c : Char) : List (List Char) → List Char
  | [] => []
  | [x] => x
  | x :: xs => x ++ c :: joinWithChar c xs

/-- The path component after the last slash. -/
def basename (p : String) : String :=
  ⟨(splitOnChar '/' p.data).getLastD p.data⟩

/-- The filename with its last extension removed
(`os.path.splitext(...)[0]`). -/
def stem (s : String) : String :=
  let parts := splitOnChar '.' s.data
  if parts.length ≤ 1 then s else ⟨joinWithChar '.' parts.dropLast⟩

/-- Embedding of `os.path.splitext(os.path.basename(nb))[0]` from `init_assignment`. -/
def notebook_id_of (p : String) : String :=
  stem (basename p)

namespace AutogradeApp

/-- The configuration of `AutogradeApp` relevant to `init_assignment`:
the `db_students` ids and the `--create` flag. -/
structure Config where
  db_students : List String
  create_student : Bool
  deriving DecidableEq, Repr

/-- Lines 165-178 of `autogradeapp.py`: read the timestamp (here passed
in, since it comes from the filesystem), upsert the submission with it
when present (logging the lateness at warning level when strictly
positive), and upsert without a timestamp otherwise. -/
def record_submission (gb : Gradebook) (assignment_id student_id : String)
    (timestamp : Option Int) : Gradebook × List LogMsg :=
  match timestamp with
  | some ts =>
    let r := gb.update_or_create_submission assignment_id student_id (some ts)
    let late := total_seconds_late (duedate_of r.1 assignment_id) r.2.timestamp
    if 0 < late then
      (r.1, [.infoSubmitted assignment_id student_id ts,
             .warningLate assignment_id student_id late])
    else
      (r.1, [.infoSubmitted assignment_id student_id ts])
  | none =>
    ((gb.update_or_create_submission assignment_id student_id none).1, [])

/-- Lines 196-208 of `autogradeapp.py`: keep the notebooks recorded for
the assignment, and warn about (and skip) the unknown ones. -/
def filter_notebooks (gb : Gradebook) (assignment_id : String)
    (notebooks : List String) : List String × List LogMsg :=
  (notebooks.filter (fun nb =>
      gb.known_notebook (notebook_id_of nb) assignment_id),
   (notebooks.filter (fun nb =>
      ! gb.known_notebook (notebook_id_of nb) assignment_id)).map
     (fun nb => .warningSkip nb))

/-- The outcome of `AutogradeApp.init_assignment`: the fatal error (if
any), the gradebook afterwards, the log, and the filtered notebook
list. -/
structure InitResult where
  err : Option AppErr
  gb : Gradebook
  log : List LogMsg
  notebooks : List String
  deriving DecidableEq, Repr

/-- Embedding of `AutogradeApp.init_assignment` from `autogradeapp.py`: auto-create
the student when listed in `db_students` or `--create` is given,
otherwise fail fast on `MissingEntry`; always fail fast when the
assignment is absent; record the submission (with its timestamp, if
one was read); then filter out unknown notebooks with a warning and
fail when none remain.  (The copying of non-notebook support files,
lines 180-194, is pure filesystem work and is not modelled.) -/
def init_assignment (cfg : Config) (timestamp : Option Int)
    (notebooks : List String) (assignment_id student_id : String)
    (gb : Gradebook) : InitResult :=
  let step1 : Option AppErr × Gradebook :=
    if cfg.db_students.contains student_id || cfg.create_student then
      (none, gb.update_or_create_student student_id)
    else
      match gb.find_student student_id with
      | .error _ => (some .missingStudent, gb)
      | .ok _ => (none, gb)
  match step1 with
  | (some e, gb1) => ⟨some e, gb1, [], notebooks⟩
  | (none, gb1) =>
    match gb1.find_assignment assignment_id with
    | .error _ => ⟨some .missingAssignment, gb1, [], notebooks⟩
    | .ok _ =>
      let r2 := record_submission gb1 assignment_id student_id timestamp
      let r3 := filter_notebooks r2.1 assignment_id notebooks
      if r3.1.isEmpty then ⟨some .noNotebooks, r2.1, r2.2 ++ r3.2, r3.1⟩
      else ⟨none, r2.1, r2.2 ++ r3.2, r3.1⟩

end AutogradeApp

end Nbgrader

namespace Nbgrader

/-- Modelled from the spec: the identity a collector plugin extracts
from a submitted filename (§4.4): student id, raw timestamp text and
canonical file id. -/
structure CollectedInfo where
  student_id : String
  timestamp : String
  file_id : String
  deriving DecidableEq, Repr

/-- Modelled from the spec: the default `FileNameCollectorPlugin` with
the named regexp used throughout the repository's tests,
`.+_(?P<student_id>\w+)_attempt_(?P<timestamp>[0-9\-]+)_(?P<file_id>\w+)`:
on a basename of the form
`{assignment}_{student}_attempt_{timestamp}_{file_id}[.ext]` it extracts
the three named groups; any other shape is not recognized. -/
def fileNameCollector (path : String) : Option CollectedInfo :=
  match splitOnChar '_' (stem (basename path)).data with
  | [_, s, a, ts, f] =>
    if a = "attempt".data then some ⟨⟨s⟩, ⟨ts⟩, ⟨f⟩⟩ else none
  | _ => none

/-- Modelled from the test's `CustomPlugin`
(`test_collect_single_notebook_attempts`): reformat the raw
`YYYY-MM-DD-HH-MM-SS` timestamp as `YYYY-MM-DD HH:MM:SS`. -/
def reformatTimestamp (ts : String) : String :=
  match splitOnChar '-' ts.data with
  | [y, mo, d, h, mi, s] =>
    ⟨y ++ '-' :: mo ++ '-' :: d ++ ' ' :: h ++ ':' :: mi ++ ':' :: s⟩
  | _ => ts

/-- The test's `CustomPlugin`: the default collector with the timestamp
reformatted. -/
def customCollector (path : String) : Option CollectedInfo :=
  (fileNameCollector path).map
    (fun i => { i with timestamp := reformatTimestamp i.timestamp })

/-- Modelled from the spec: timestamp parsing for attempt resolution.
A timestamp in the expected format carries exactly 14 digits
(`YYYYMMDDHHMMSS`); read as one number they order chronologically.
Anything else is unparseable. -/
def parseTimestamp (ts : String) : Option Nat :=
  let ds := ts.data.filter Char.isDigit
  if ds.length = 14 then
    some (ds.foldl (fun n c => n * 10 + (c.toNat - 48)) 0)
  else none

/-- An identified candidate attempt: the extracted identity plus the
file's content. -/
structure Candidate where
  info : CollectedInfo
  content : String
  deriving DecidableEq, Repr

/-- One step of attempt resolution: a candidate replaces the current
best exactly when its parsed timestamp is strictly later (so equal
timestamps keep the earlier candidate, and an unparseable timestamp
never beats a parseable one). -/
def pickStep (best : Option Candidate) (c : Candidate) : Option Candidate :=
  match best with
  | none => some c
  | some b =>
    match parseTimestamp c.info.timestamp, parseTimestamp b.info.timestamp with
    | some tc, some tb => if tb < tc then some c else some b
    | some _, none => some c
    | none, _ => some b

/-- Modelled from the spec (§4.5 step 4): the winning attempt of a
group is the one with the latest parseable timestamp, ties broken by
discovery order. -/
def pickWinner (candidates : List Candidate) : Option Candidate :=
  candidates.foldl pickStep none

/-- Keep the first occurrence of each element, in discovery order. -/
def dedupKeep {α : Type} [DecidableEq α] (l : List α) : List α :=
  l.foldl (fun acc x => if acc.contains x then acc else acc ++ [x]) []

/-- A directory of the canonical submitted tree: filename to content. -/
abbrev DirFiles := List (String × String)

/-- The canonical submitted tree, keyed by student id (the assignment
is fixed for one run of the collection pipeline). -/
abbrev SubmittedTree := List (String × DirFiles)

/-- Replace a student's directory in the tree, or append it. -/
def treeSet (t : SubmittedTree) (sid : String) (d : DirFiles) : SubmittedTree :=
  if t.any (fun e => e.1 == sid) then
    t.map (fun e => if e.1 == sid then (sid, d) else e)
  else t ++ [(sid, d)]

/-- The sidecar timestamp for a student's directory: the latest
parseable timestamp among the winning attempts. -/
def latestTimestamp (ws : List Candidate) : String :=
  match pickWinner ws with
  | some w => w.info.timestamp
  | none => ""

/-- The files materialized for one student: each winning attempt at
`{file_id}.ipynb`, plus the sidecar `timestamp.txt`. -/
def studentDir (ws : List Candidate) : DirFiles :=
  ws.map (fun w => (w.info.file_id ++ ".ipynb", w.content))
    ++ [("timestamp.txt", latestTimestamp ws)]

/-- One student's winning attempts: group the student's candidates by
file id (discovery order) and pick each group's winner. -/
def groupWinners (infos : List Candidate) (sid : String) : List Candidate :=
  let mine := infos.filter (fun c => c.info.student_id == sid)
  (dedupKeep (mine.map (fun c => c.info.file_id))).filterMap
    (fun fid => pickWinner (mine.filter (fun c => c.info.file_id == fid)))

/-- Modelled from the spec (§4.5 steps 3-5), with the strict-mode
policy pinned by `test_collect_invalid_notebook`: identify every
extracted file with the collector (unrecognized files are skipped);
under `--strict` also skip recognized files whose `file_id` is not a
released notebook; group the rest by student and file id, pick each
group's winner and materialize each affected student's directory. -/
def collectStep (strict : Bool) (collect : String → Option CollectedInfo)
    (released : List String) (files : List (String × String))
    (tree : SubmittedTree) : SubmittedTree :=
  let ident := files.filterMap
    (fun f => (collect f.1).map (fun i => Candidate.mk i f.2))
  let infos := if strict then
    ident.filter (fun c => released.contains c.info.file_id)
  else ident
  let sids := dedupKeep (infos.map (fun c => c.info.student_id))
  sids.foldl (fun t sid => treeSet t sid (studentDir (groupWinners infos sid)))
    tree

/-- An entry of the archive (staging) directory: a plain file or a zip
archive with member files. -/
inductive AEntry where
  | file (name content : String)
  | zipa (name : String) (members : List (String × String))
  deriving DecidableEq, Repr

/-- Unpack the staging entries into the extracted directory's contents:
plain files are copied, archive members are unpacked. -/
def flattenEntries : List AEntry → List (String × String)
  | [] => []
  | .file n c :: rest => (n, c) :: flattenEntries rest
  | .zipa _ ms :: rest => ms ++ flattenEntries rest

/-- The collection pipeline's on-disk state: the extracted directory
(`none` when it does not exist yet) and the canonical submitted tree. -/
structure ZCState where
  extracted : Option (List (String × String))
  submitted : SubmittedTree
  deriving DecidableEq, Repr

/-- The fatal conditions of the collection pipeline pinned by the
tests: an empty staging area with no prior extraction, and
re-extraction over an existing extracted directory without `--force`. -/
inductive ZErr where
  | noFiles
  | alreadyExtracted
  deriving DecidableEq, Repr

/-- Modelled from the spec (§4.5 steps 1-2), with the replay behaviour
pinned by `test_empty_archive_dir` and `test_extract_single_notebook`:
an empty staging area fails unless a previous extraction exists (whose
files are then reused); a non-empty staging area extracts fresh, but
refuses to overwrite an existing extraction unless `--force` is
given. -/
def extractStep (force : Bool) (archive : List AEntry) (st : ZCState) :
    Except ZErr (List (String × String)) :=
  if archive.isEmpty then
    match st.extracted with
    | some fs => .ok fs
    | none => .error .noFiles
  else
    match st.extracted with
    | some _ =>
      if force then .ok (flattenEntries archive) else .error .alreadyExtracted
    | none => .ok (flattenEntries archive)

/-- Modelled from the spec: one run of `zip_collect` over the staging
entries.  On a fatal extraction error the state is returned unchanged
(nothing has been materialized); otherwise the extracted files are
recorded and the canonical tree updated. -/
def zip_collect (force strict : Bool)
    (collect : String → Option CollectedInfo) (released : List String)
    (archive : List AEntry) (st : ZCState) : Option ZErr × ZCState :=
  match extractStep force archive st with
  | .error e => (some e, st)
  | .ok files =>
    (none, ⟨some files, collectStep strict collect released files st.submitted⟩)

theorem assignments_update_or_create_student (gb : Gradebook) (sid : String) :
    (gb.update_or_create_student sid).assignments = gb.assignments := by
  unfold Gradebook.update_or_create_student
  split <;> rfl

theorem students_update_or_create_submission (gb : Gradebook)
    (aid sid : String) (ts : Option Int) :
    (gb.update_or_create_submission aid sid ts).1.students = gb.students := rfl

theorem students_record_submission (gb : Gradebook) (aid sid : String)
    (ts : Option Int) :
    (AutogradeApp.record_submission gb aid sid ts).1.students = gb.students := by
  cases ts with
  | none => rfl
  | some t =>
    simp only [AutogradeApp.record_submission]
    split <;> rfl

theorem assignments_record_submission (gb : Gradebook) (aid sid : String)
    (ts : Option Int) :
    (AutogradeApp.record_submission gb aid sid ts).1.assignments
      = gb.assignments := by
  cases ts with
  | none => rfl
  | some t =>
    simp only [AutogradeApp.record_submission]
    split <;> rfl

theorem known_notebook_eq_contains {gb : Gradebook} {aid : String}
    {a : Assignment} (h : gb.find_assignment aid = .ok a) (x : String) :
    gb.known_notebook x aid = a.notebooks.contains x := by
  unfold Gradebook.known_notebook Gradebook.find_notebook
  rw [h]
  cases hc : a.notebooks.contains x <;> simp only [hc] <;> rfl

theorem find_assignment_congr {g1 g2 : Gradebook}
    (h : g1.assignments = g2.assignments) (aid : String) :
    g1.find_assignment aid = g2.find_assignment aid := by
  unfold Gradebook.find_assignment
  rw [h]

theorem known_notebook_congr {g1 g2 : Gradebook}
    (h : g1.assignments = g2.assignments) (nb aid : String) :
    g1.known_notebook nb aid = g2.known_notebook nb aid := by
  unfold Gradebook.known_notebook Gradebook.find_notebook
  rw [find_assignment_congr h]

theorem find_submission_upsert (l : List Submission) (aid sid : String)
    (ts : Option Int) :
    List.find? (fun s => s.assignment_id == aid && s.student_id == sid)
        (upsertSubmission l ⟨aid, sid, ts⟩) = some ⟨aid, sid, ts⟩ := by
  induction l with
  | nil => simp [upsertSubmission, List.find?]
  | cons t rest ih =>
    unfold upsertSubmission
    by_cases h : (t.assignment_id == aid && t.student_id == sid) = true
    · rw [if_pos h]
      simp [List.find?]
    · have hb : (t.assignment_id == aid && t.student_id == sid) = false :=
        Bool.eq_false_iff.mpr h
      rw [if_neg h]
      simp only [List.find?, hb]
      exact ih

theorem find_submission_update (gb : Gradebook) (aid sid : String)
    (ts : Option Int) :
    ((gb.update_or_create_submission aid sid ts).1).find_submission aid sid
      = some ⟨aid, sid, ts⟩ := by
  unfold Gradebook.update_or_create_submission Gradebook.find_submission
  exact find_submission_upsert gb.submissions aid sid ts

/-- C3: when an assignment already has at least one submission and the
new notebook set drops a previously recorded notebook, the cleanup step
fails with the `ConflictingState` kind and the gradebook is returned
unchanged (no `remove_notebook` call is made). -/
theorem assign_conflict_guard (gb : Gradebook) (notebooks : List NbPath)
    (assignment_id student_id n : String) (a : Assignment)
    (hfind : gb.find_assignment assignment_id = .ok a)
    (hmem : n ∈ a.notebooks)
    (hrem : n ∉ new_notebook_ids notebooks assignment_id student_id)
    (hsub : 0 < (gb.assignment_submissions assignment_id).length) :
    AssignApp.clean_old_notebooks gb notebooks assignment_id student_id
      = (some .conflictingState, gb) := by
  have hne : a.notebooks.toFinset
      ≠ (new_notebook_ids notebooks assignment_id student_id).toFinset := by
    intro h
    exact hrem (List.mem_toFinset.mp (h ▸ List.mem_toFinset.mpr hmem))
  unfold AssignApp.clean_old_notebooks
  rw [hfind]
  simp only [if_neg hne, if_pos hsub]

/-- Witness for `assign_conflict_guard` at a concrete store: assignment
`ps1` records notebook `p1` and has one submission; the new notebook
set is empty. -/
theorem assign_conflict_guard_witness :
    (Gradebook.mk [⟨"ps1", none, ["p1"]⟩] ["hacker"]
        [⟨"ps1", "hacker", none⟩]).find_assignment "ps1"
      = .ok ⟨"ps1", none, ["p1"]⟩ ∧
    AssignApp.clean_old_notebooks
        (Gradebook.mk [⟨"ps1", none, ["p1"]⟩] ["hacker"]
          [⟨"ps1", "hacker", none⟩]) [] "ps1" "."
      = (some .conflictingState,
         Gradebook.mk [⟨"ps1", none, ["p1"]⟩] ["hacker"]
           [⟨"ps1", "hacker", none⟩]) :=
  ⟨rfl,
   assign_conflict_guard
     (Gradebook.mk [⟨"ps1", none, ["p1"]⟩] ["hacker"] [⟨"ps1", "hacker", none⟩])
     [] "ps1" "." "p1" ⟨"ps1", none, ["p1"]⟩ rfl (by decide) (by decide)
     (by decide)⟩

/-- C1: in the distribution pass the stages are registered in exactly the
order insert header/footer, lock cells, clear solutions, clear outputs,
check metadata, compute checksums, save cells, clear hidden tests,
compute checksums again, check metadata again; `ComputeChecksums` occurs
exactly twice, once after `ClearSolutions` and `ClearOutput` and before
`ClearHiddenTests`, and a second time (position 8) after
`ClearHiddenTests` (position 7). -/
theorem assign_pipeline_order :
    AssignApp.preprocessors =
      [ .IncludeHeaderFooter, .LockCells, .ClearSolutions, .ClearOutput,
        .CheckCellMetadata, .ComputeChecksums, .SaveCells, .ClearHiddenTests,
        .ComputeChecksums, .CheckCellMetadata ] ∧
    AssignApp.preprocessors.count .ComputeChecksums = 2 ∧
    AssignApp.preprocessors.indexOf .ComputeChecksums = 5 ∧
    AssignApp.preprocessors.indexOf .ClearSolutions
      < AssignApp.preprocessors.indexOf .ComputeChecksums ∧
    AssignApp.preprocessors.indexOf .ClearOutput
      < AssignApp.preprocessors.indexOf .ComputeChecksums ∧
    AssignApp.preprocessors.indexOf .ComputeChecksums
      < AssignApp.preprocessors.indexOf .ClearHiddenTests ∧
    AssignApp.preprocessors.indexOf .ClearHiddenTests = 7 ∧
    AssignApp.preprocessors.get? 8 = some .ComputeChecksums ∧
    AssignApp.preprocessors.get? 9 = some .CheckCellMetadata := by
  decide

/-- C4: a successful `convert_single_notebook` applies the whole sanitize
sub-pass and then the whole execute-and-grade sub-pass, so the applied
trace is exactly `sanitize_preprocessors ++ autograde_preprocessors`;
in that trace `OverwriteCells` strictly precedes `Execute`; and when the
sanitize sub-pass fails after `k` stages, no autograde stage runs at
all. -/
theorem autograde_sanitize_before_execute (b : Bool) :
    ((AutogradeApp.convert_single_notebook none none ⟨b, []⟩).2.applied =
      AutogradeApp.sanitize_preprocessors ++
        AutogradeApp.autograde_preprocessors) ∧
    ((AutogradeApp.convert_single_notebook none none ⟨b, []⟩).2.applied.indexOf
        .OverwriteCells <
      (AutogradeApp.convert_single_notebook none none ⟨b, []⟩).2.applied.indexOf
        .Execute) ∧
    (∀ k o, (AutogradeApp.convert_single_notebook (some k) o ⟨b, []⟩).2.applied =
      AutogradeApp.sanitize_preprocessors.take k) := by
  have h : (AutogradeApp.convert_single_notebook none none ⟨b, []⟩).2.applied =
      AutogradeApp.sanitize_preprocessors ++
        AutogradeApp.autograde_preprocessors := rfl
  refine ⟨h, ?_, fun k o => rfl⟩
  rw [h]
  decide

/-- C6 counterexample: with `db_assignments = [ps1]` configured (as the
repository's own tests do), `nbgrader assign ps1` does NOT abort even
though the assignment does not exist in the store and `--create` is not
given: `init_assignment` auto-creates the assignment. -/
theorem assign_autocreate_without_flag :
    (AssignApp.Config.mk ["ps1"] false false "*").create_assignment = false ∧
    (Gradebook.mk [] [] []).find_assignment "ps1" = .error .missingEntry ∧
    (AssignApp.init_assignment ⟨["ps1"], false, false, "*"⟩ [] "ps1" "."
        (Gradebook.mk [] [] [])).1 = none ∧
    (AssignApp.init_assignment ⟨["ps1"], false, false, "*"⟩ [] "ps1" "."
        (Gradebook.mk [] [] [])).2.find_assignment "ps1"
      = .ok ⟨"ps1", none, []⟩ :=
  ⟨rfl, rfl, rfl, rfl⟩

/-- C6 (amended): a `MissingEntry` from `find_*` is turned into an
auto-create when the entity is pre-declared in configuration
(`db_assignments` / `db_students`) or the `--create` flag is given, and
into a fatal abort otherwise; autograde always aborts when the
assignment is absent from the store. -/
theorem missing_entry_handling :
    (∀ (cfg : AssignApp.Config) (nbs : List NbPath) (aid sid : String)
        (gb : Gradebook),
      cfg.no_database = false →
      cfg.db_assignments.contains aid = false →
      cfg.create_assignment = false →
      gb.find_assignment aid = .error .missingEntry →
      AssignApp.init_assignment cfg nbs aid sid gb
        = (some .missingAssignment, gb)) ∧
    (∀ (cfg : AssignApp.Config) (nbs : List NbPath) (aid sid : String)
        (gb : Gradebook),
      cfg.no_database = false →
      cfg.create_assignment = true →
      (cfg.notebook_id == "*") = false →
      AssignApp.init_assignment cfg nbs aid sid gb
        = (none, gb.update_or_create_assignment aid)) ∧
    (∀ (cfg : AutogradeApp.Config) (ts : Option Int) (nbs : List String)
        (aid sid : String) (gb : Gradebook),
      cfg.db_students.contains sid = false →
      cfg.create_student = false →
      gb.find_student sid = .error .missingEntry →
      AutogradeApp.init_assignment cfg ts nbs aid sid gb
        = ⟨some .missingStudent, gb, [], nbs⟩) ∧
    (∀ (cfg : AutogradeApp.Config) (ts : Option Int) (nbs : List String)
        (aid sid : String) (gb : Gradebook),
      (cfg.db_students.contains sid || cfg.create_student) = true →
      (AutogradeApp.init_assignment cfg ts nbs aid sid gb).err
          ≠ some .missingStudent ∧
      ((AutogradeApp.init_assignment cfg ts nbs aid sid gb).gb).students.contains
          sid = true) ∧
    (∀ (cfg : AutogradeApp.Config) (ts : Option Int) (nbs : List String)
        (aid sid : String) (gb : Gradebook),
      gb.find_assignment aid = .error .missingEntry →
      (AutogradeApp.init_assignment cfg ts nbs aid sid gb).err ≠ none) := by
  refine ⟨?_, ?_, ?_, ?_, ?_⟩
  · intro cfg nbs aid sid gb hnodb hconf hcreate hfind
    unfold AssignApp.init_assignment
    rw [hnodb, hconf, hcreate]
    simp only [Bool.or_self, Bool.false_eq_true, if_false]
    rw [hfind]
  · intro cfg nbs aid sid gb hnodb hcreate hpat
    unfold AssignApp.init_assignment
    rw [hnodb, hcreate, hpat]
    simp
  · intro cfg ts nbs aid sid gb hconf hcreate hfind
    unfold AutogradeApp.init_assignment
    rw [hconf, hcreate]
    simp only [Bool.or_self, Bool.false_eq_true, if_false]
    rw [hfind]
  · intro cfg ts nbs aid sid gb hstudent
    unfold AutogradeApp.init_assignment
    rw [hstudent]
    simp only [if_true]
    have hcont : ((gb.update_or_create_student sid).students).contains sid
        = true := by
      unfold Gradebook.update_or_create_student
      split
      · assumption
      · simp [List.contains_eq_any_beq]
    have hcont2 : ((AutogradeApp.record_submission (gb.update_or_create_student sid)
        aid sid ts).1).students.contains sid = true := by
      rw [students_record_submission]
      exact hcont
    constructor
    · cases hfa : (gb.update_or_create_student sid).find_assignment aid with
      | error e => simp [hfa]
      | ok a =>
        simp only [hfa]
        split <;> simp
    · cases hfa : (gb.update_or_create_student sid).find_assignment aid with
      | error e =>
        simp only [hfa]
        simpa using hcont
      | ok a =>
        simp only [hfa]
        split <;> simpa using hcont2
  · intro cfg ts nbs aid sid gb hfind
    unfold AutogradeApp.init_assignment
    by_cases hb : (cfg.db_students.contains sid || cfg.create_student) = true
    · rw [hb]
      simp only [if_true]
      rw [find_assignment_congr (assignments_update_or_create_student gb sid) aid,
        hfind]
      simp
    · rw [Bool.eq_false_iff.mpr hb]
      simp only [Bool.false_eq_true, if_false]
      cases hs : gb.find_student sid with
      | error e => simp
      | ok s =>
        simp only []
        rw [hfind]
        simp

/-- Witness for `missing_entry_handling`: concrete aborts and
auto-creates for each conjunct. -/
theorem missing_entry_handling_witness :
    AssignApp.init_assignment ⟨[], false, false, "*"⟩ [] "ps1" "."
        (Gradebook.mk [] [] []) = (some .missingAssignment, ⟨[], [], []⟩) ∧
    AssignApp.init_assignment ⟨[], true, false, "nb1"⟩ [] "ps1" "."
        (Gradebook.mk [] [] [])
      = (none, (Gradebook.mk [] [] []).update_or_create_assignment "ps1") ∧
    AutogradeApp.init_assignment ⟨[], false⟩ none [] "ps1" "hacker"
        (Gradebook.mk [] [] [])
      = ⟨some .missingStudent, ⟨[], [], []⟩, [], []⟩ ∧
    (AutogradeApp.init_assignment ⟨["hacker"], false⟩ none [] "ps1" "hacker"
        (Gradebook.mk [] [] [])).err ≠ some .missingStudent ∧
    (AutogradeApp.init_assignment ⟨["hacker"], false⟩ none [] "ps1" "hacker"
        (Gradebook.mk [] [] [])).err ≠ none :=
  ⟨missing_entry_handling.1 ⟨[], false, false, "*"⟩ [] "ps1" "."
      (Gradebook.mk [] [] []) rfl rfl rfl rfl,
   missing_entry_handling.2.1 ⟨[], true, false, "nb1"⟩ [] "ps1" "."
      (Gradebook.mk [] [] []) rfl rfl rfl,
   missing_entry_handling.2.2.1 ⟨[], false⟩ none [] "ps1" "hacker"
      (Gradebook.mk [] [] []) rfl rfl rfl,
   (missing_entry_handling.2.2.2.1 ⟨["hacker"], false⟩ none [] "ps1" "hacker"
      (Gradebook.mk [] [] []) rfl).1,
   missing_entry_handling.2.2.2.2 ⟨["hacker"], false⟩ none [] "ps1" "hacker"
      (Gradebook.mk [] [] []) rfl⟩

/-- C8: when no timestamp is recoverable the submission is upserted
without a timestamp, nothing is logged and the lateness is zero; when a
timestamp is recovered the submission is upserted with it, and whenever
the computed seconds-late is strictly positive a warning-level lateness
message is logged. -/
theorem autograde_timestamp_handling (gb : Gradebook) (aid sid : String) :
    ((AutogradeApp.record_submission gb aid sid none).1.find_submission aid sid
        = some ⟨aid, sid, none⟩) ∧
    (AutogradeApp.record_submission gb aid sid none).2 = [] ∧
    total_seconds_late (duedate_of gb aid) none = 0 ∧
    (∀ t : Int,
      (AutogradeApp.record_submission gb aid sid (some t)).1.find_submission
          aid sid = some ⟨aid, sid, some t⟩ ∧
      (0 < total_seconds_late (duedate_of gb aid) (some t) →
        LogMsg.warningLate aid sid (total_seconds_late (duedate_of gb aid) (some t))
          ∈ (AutogradeApp.record_submission gb aid sid (some t)).2)) := by
  refine ⟨?_, rfl, ?_, ?_⟩
  · unfold AutogradeApp.record_submission
    exact find_submission_update gb aid sid none
  · cases h : duedate_of gb aid <;> rfl
  · intro t
    constructor
    · unfold AutogradeApp.record_submission
      dsimp only
      split <;> exact find_submission_update gb aid sid (some t)
    · intro hlate
      unfold AutogradeApp.record_submission
      dsimp only
      have hd : duedate_of (gb.update_or_create_submission aid sid (some t)).1 aid
          = duedate_of gb aid := rfl
      have hts : (gb.update_or_create_submission aid sid (some t)).2.timestamp
          = some t := rfl
      rw [hd, hts, if_pos hlate]
      simp

/-- Witness for `autograde_timestamp_handling`: assignment `ps1` is due
at 100 and the submission arrives at 160, so it is 60 seconds late and
the warning is logged. -/
theorem autograde_timestamp_handling_witness :
    total_seconds_late
        (duedate_of (Gradebook.mk [⟨"ps1", some 100, []⟩] [] []) "ps1")
        (some 160) = 60 ∧
    LogMsg.warningLate "ps1" "hacker"
        (total_seconds_late
          (duedate_of (Gradebook.mk [⟨"ps1", some 100, []⟩] [] []) "ps1")
          (some 160))
      ∈ (AutogradeApp.record_submission (Gradebook.mk [⟨"ps1", some 100, []⟩] [] [])
          "ps1" "hacker" (some 160)).2 :=
  ⟨by decide,
   ((autograde_timestamp_handling (Gradebook.mk [⟨"ps1", some 100, []⟩] [] [])
      "ps1" "hacker").2.2.2 160).2 (by decide)⟩

/-- C7 counterexample: a submitted notebook whose identifier is not
recorded in the gradebook for the assignment does NOT abort the grading
run: `init_assignment` skips it with a warning and succeeds, keeping the
known notebook. -/
theorem autograde_unknown_not_fatal :
    (Gradebook.mk [⟨"ps1", none, ["problem1"]⟩] [] []).find_notebook
        (notebook_id_of "submitted/hacker/ps1/nope.ipynb") "ps1"
      = .error .missingEntry ∧
    (AutogradeApp.init_assignment ⟨[], true⟩ none
        ["submitted/hacker/ps1/problem1.ipynb", "submitted/hacker/ps1/nope.ipynb"]
        "ps1" "hacker" (Gradebook.mk [⟨"ps1", none, ["problem1"]⟩] [] [])).err
      = none ∧
    (AutogradeApp.init_assignment ⟨[], true⟩ none
        ["submitted/hacker/ps1/problem1.ipynb", "submitted/hacker/ps1/nope.ipynb"]
        "ps1" "hacker" (Gradebook.mk [⟨"ps1", none, ["problem1"]⟩] [] [])).notebooks
      = ["submitted/hacker/ps1/problem1.ipynb"] ∧
    (AutogradeApp.init_assignment ⟨[], true⟩ none
        ["submitted/hacker/ps1/problem1.ipynb", "submitted/hacker/ps1/nope.ipynb"]
        "ps1" "hacker" (Gradebook.mk [⟨"ps1", none, ["problem1"]⟩] [] [])).log
      = [.warningSkip "submitted/hacker/ps1/nope.ipynb"] :=
  ⟨rfl, rfl, rfl, rfl⟩

/-- C7 (amended): a submitted notebook whose identifier is not recorded
for the assignment is skipped with a warning rather than aborting; the
run aborts (before processing any document) exactly when no submitted
notebook is recorded, and succeeds as soon as one is. -/
theorem autograde_unknown_notebook_policy :
    (∀ (gb : Gradebook) (aid : String) (nbs : List String) (nb : String),
      nb ∈ nbs →
      gb.known_notebook (notebook_id_of nb) aid = false →
      nb ∉ (AutogradeApp.filter_notebooks gb aid nbs).1 ∧
      LogMsg.warningSkip nb ∈ (AutogradeApp.filter_notebooks gb aid nbs).2) ∧
    (∀ (cfg : AutogradeApp.Config) (ts : Option Int) (nbs : List String)
        (aid sid : String) (gb : Gradebook) (a : Assignment),
      (cfg.db_students.contains sid || cfg.create_student) = true →
      gb.find_assignment aid = .ok a →
      (∀ nb ∈ nbs, a.notebooks.contains (notebook_id_of nb) = false) →
      (AutogradeApp.init_assignment cfg ts nbs aid sid gb).err
        = some .noNotebooks) ∧
    (∀ (cfg : AutogradeApp.Config) (ts : Option Int) (nbs : List String)
        (aid sid nb : String) (gb : Gradebook) (a : Assignment),
      (cfg.db_students.contains sid || cfg.create_student) = true →
      gb.find_assignment aid = .ok a →
      nb ∈ nbs →
      a.notebooks.contains (notebook_id_of nb) = true →
      (AutogradeApp.init_assignment cfg ts nbs aid sid gb).err = none) := by
  refine ⟨?_, ?_, ?_⟩
  · intro gb aid nbs nb hmem hfalse
    constructor
    · intro h
      rw [AutogradeApp.filter_notebooks] at h
      have := (List.mem_filter.mp h).2
      rw [hfalse] at this
      exact absurd this (by simp)
    · rw [AutogradeApp.filter_notebooks]
      exact List.mem_map.mpr
        ⟨nb, List.mem_filter.mpr ⟨hmem, by simp [hfalse]⟩, rfl⟩
  · intro cfg ts nbs aid sid gb a hstudent hfind hall
    have hasgn : ((AutogradeApp.record_submission (gb.update_or_create_student sid)
        aid sid ts).1).assignments = gb.assignments := by
      rw [assignments_record_submission, assignments_update_or_create_student]
    have hfa : (gb.update_or_create_student sid).find_assignment aid = .ok a := by
      rw [find_assignment_congr (assignments_update_or_create_student gb sid)]
      exact hfind
    have hrc : ((AutogradeApp.record_submission (gb.update_or_create_student sid)
        aid sid ts).1).find_assignment aid = .ok a := by
      rw [find_assignment_congr hasgn]
      exact hfind
    have hfe : (AutogradeApp.filter_notebooks
        ((AutogradeApp.record_submission (gb.update_or_create_student sid)
          aid sid ts).1) aid nbs).1 = [] := by
      rw [AutogradeApp.filter_notebooks]
      refine List.filter_eq_nil_iff.mpr ?_
      intro nb hnb
      rw [known_notebook_eq_contains hrc, hall nb hnb]
      simp
    unfold AutogradeApp.init_assignment
    rw [hstudent]
    simp only [if_true]
    rw [hfa]
    simp [hfe]
  · intro cfg ts nbs aid sid nb gb a hstudent hfind hmem hcont
    have hasgn : ((AutogradeApp.record_submission (gb.update_or_create_student sid)
        aid sid ts).1).assignments = gb.assignments := by
      rw [assignments_record_submission, assignments_update_or_create_student]
    have hfa : (gb.update_or_create_student sid).find_assignment aid = .ok a := by
      rw [find_assignment_congr (assignments_update_or_create_student gb sid)]
      exact hfind
    have hrc : ((AutogradeApp.record_submission (gb.update_or_create_student sid)
        aid sid ts).1).find_assignment aid = .ok a := by
      rw [find_assignment_congr hasgn]
      exact hfind
    have hmemf : nb ∈ (AutogradeApp.filter_notebooks
        ((AutogradeApp.record_submission (gb.update_or_create_student sid)
          aid sid ts).1) aid nbs).1 := by
      rw [AutogradeApp.filter_notebooks]
      exact List.mem_filter.mpr
        ⟨hmem, by rw [known_notebook_eq_contains hrc, hcont]⟩
    have hne : (AutogradeApp.filter_notebooks
        ((AutogradeApp.record_submission (gb.update_or_create_student sid)
          aid sid ts).1) aid nbs).1.isEmpty = false :=
      Bool.eq_false_iff.mpr (fun h =>
        (List.ne_nil_of_mem hmemf) (List.isEmpty_iff.mp h))
    unfold AutogradeApp.init_assignment
    rw [hstudent]
    simp only [if_true]
    rw [hfa]
    simp [hne]

/-- Witness for `autograde_unknown_notebook_policy`: with one submitted
notebook whose identifier is unknown, the run aborts with the
no-notebooks error; with a known one it succeeds. -/
theorem autograde_unknown_notebook_policy_witness :
    (AutogradeApp.init_assignment ⟨[], true⟩ none ["a/unknown.ipynb"] "ps1"
        "hacker" (Gradebook.mk [⟨"ps1", none, ["problem1"]⟩] [] [])).err
      = some .noNotebooks ∧
    (AutogradeApp.init_assignment ⟨[], true⟩ none ["a/problem1.ipynb"] "ps1"
        "hacker" (Gradebook.mk [⟨"ps1", none, ["problem1"]⟩] [] [])).err
      = none :=
  ⟨autograde_unknown_notebook_policy.2.1 ⟨[], true⟩ none ["a/unknown.ipynb"]
      "ps1" "hacker" (Gradebook.mk [⟨"ps1", none, ["problem1"]⟩] [] [])
      ⟨"ps1", none, ["problem1"]⟩ rfl rfl (by decide),
   autograde_unknown_notebook_policy.2.2 ⟨[], true⟩ none ["a/problem1.ipynb"]
      "ps1" "hacker" "a/problem1.ipynb"
      (Gradebook.mk [⟨"ps1", none, ["problem1"]⟩] [] [])
      ⟨"ps1", none, ["problem1"]⟩ rfl rfl (by decide) (by decide)⟩

/-- C10: whatever the initial state and however each sub-pass ends
(success, or failure after any number of stages), after
`convert_single_notebook` the `_sanitizing` flag is `true` again, so
`_input_directory` resolves to the submitted directory for the next
submission. -/
theorem autograde_sanitizing_restored (sanOutcome agOutcome : Option Nat)
    (s : AutogradeApp.AGState) :
    ((AutogradeApp.convert_single_notebook sanOutcome agOutcome s).2).sanitizing
        = true ∧
    AutogradeApp.input_directory
        ((AutogradeApp.convert_single_notebook sanOutcome agOutcome s).2)
      = "submitted" := by
  cases sanOutcome <;> cases agOutcome <;>
    simp [AutogradeApp.convert_single_notebook, AutogradeApp.runBaseConvert,
      AutogradeApp.input_directory]

theorem pickStep_cases (acc : Option Candidate) (c w : Candidate)
    (h : pickStep acc c = some w) : w = c ∨ acc = some w := by
  unfold pickStep at h
  cases acc with
  | none => exact Or.inl (Option.some.inj h).symm
  | some b =>
    dsimp only at h
    cases hc : parseTimestamp c.info.timestamp with
    | none =>
      rw [hc] at h
      exact Or.inr h
    | some tc =>
      rw [hc] at h
      cases hb : parseTimestamp b.info.timestamp with
      | none =>
        rw [hb] at h
        exact Or.inl (Option.some.inj h).symm
      | some tb =>
        rw [hb] at h
        dsimp only at h
        by_cases hlt : tb < tc
        · rw [if_pos hlt] at h
          exact Or.inl (Option.some.inj h).symm
        · rw [if_neg hlt] at h
          exact Or.inr h

theorem pickWinner_foldl_sound (P : Candidate → Prop) :
    ∀ (l : List Candidate) (acc : Option Candidate),
      (∀ b, acc = some b → P b) → (∀ c ∈ l, P c) →
      ∀ w, l.foldl pickStep acc = some w → P w := by
  intro l
  induction l with
  | nil => exact fun acc hacc _ w h => hacc w h
  | cons c rest ih =>
    intro acc hacc hall w h
    refine ih (pickStep acc c) ?_
      (fun x hx => hall x (List.mem_cons_of_mem _ hx)) w h
    intro b hb
    rcases pickStep_cases acc c b hb with h1 | h2
    · exact h1 ▸ hall c (List.mem_cons_self c rest)
    · exact hacc b h2

theorem pickWinner_mem {l : List Candidate} {w : Candidate}
    (h : pickWinner l = some w) : w ∈ l :=
  pickWinner_foldl_sound (fun x => x ∈ l) l none
    (fun _ hb => Option.noConfusion hb) (fun _ hc => hc) w h

theorem groupWinners_sub {infos : List Candidate} {sid : String}
    {w : Candidate} (h : w ∈ groupWinners infos sid) : w ∈ infos := by
  unfold groupWinners at h
  rcases List.mem_filterMap.mp h with ⟨fid, _, hpick⟩
  exact (List.mem_filter.mp (List.mem_filter.mp (pickWinner_mem hpick)).1).1

theorem studentDir_shape (released : List String) (ws : List Candidate)
    (hws : ∀ w ∈ ws, released.contains w.info.file_id = true)
    (fn c : String) (h : (fn, c) ∈ studentDir ws) :
    fn = "timestamp.txt"
      ∨ ∃ fid, released.contains fid = true ∧ fn = fid ++ ".ipynb" := by
  unfold studentDir at h
  rcases List.mem_append.mp h with h1 | h2
  · rcases List.mem_map.mp h1 with ⟨w, hw, heq⟩
    exact Or.inr ⟨w.info.file_id, hws w hw, (congrArg Prod.fst heq).symm⟩
  · left
    have h3 := List.mem_singleton.mp h2
    exact congrArg Prod.fst h3

theorem treeSet_pres {P : DirFiles → Prop} {t : SubmittedTree}
    {sid : String} {d : DirFiles}
    (ht : ∀ e ∈ t, P e.2) (hd : P d) :
    ∀ e ∈ treeSet t sid d, P e.2 := by
  intro e he
  unfold treeSet at he
  split at he
  · rcases List.mem_map.mp he with ⟨orig, horig, heq⟩
    by_cases hc : (orig.1 == sid) = true
    · rw [if_pos hc] at heq
      rw [← heq]
      exact hd
    · rw [if_neg hc] at heq
      rw [← heq]
      exact ht orig horig
  · rcases List.mem_append.mp he with h1 | h2
    · exact ht e h1
    · rw [List.mem_singleton.mp h2]
      exact hd

theorem foldl_treeSet_pres {P : DirFiles → Prop}
    (infos : List Candidate) (sids : List String) (t : SubmittedTree)
    (ht : ∀ e ∈ t, P e.2)
    (hdirs : ∀ sid, P (studentDir (groupWinners infos sid))) :
    ∀ e ∈ sids.foldl
        (fun t sid => treeSet t sid (studentDir (groupWinners infos sid))) t,
      P e.2 := by
  induction sids generalizing t with
  | nil => exact ht
  | cons sid rest ih =>
    exact ih (treeSet t sid (studentDir (groupWinners infos sid)))
      (treeSet_pres ht (hdirs sid))

theorem collectStep_strict_shape (collect : String → Option CollectedInfo)
    (released : List String) (files : List (String × String)) :
    ∀ e ∈ collectStep true collect released files [],
      ∀ fn c, (fn, c) ∈ e.2 →
        fn = "timestamp.txt"
          ∨ ∃ fid, released.contains fid = true ∧ fn = fid ++ ".ipynb" := by
  intro e he fn c hfc
  have hinf : ∀ x ∈ (files.filterMap
      (fun f => (collect f.1).map (fun i => Candidate.mk i f.2))).filter
        (fun x => released.contains x.info.file_id),
      released.contains x.info.file_id = true :=
    fun x hx => (List.mem_filter.mp hx).2
  have hP := foldl_treeSet_pres
    (P := fun d => ∀ fn c, (fn, c) ∈ d →
      fn = "timestamp.txt"
        ∨ ∃ fid, released.contains fid = true ∧ fn = fid ++ ".ipynb")
    ((files.filterMap
        (fun f => (collect f.1).map (fun i => Candidate.mk i f.2))).filter
      (fun x => released.contains x.info.file_id))
    (dedupKeep (((files.filterMap
        (fun f => (collect f.1).map (fun i => Candidate.mk i f.2))).filter
      (fun x => released.contains x.info.file_id)).map
        (fun c => c.info.student_id)))
    [] (fun x hx => absurd hx (List.not_mem_nil x))
    (fun sid fn c h =>
      studentDir_shape released _
        (fun w hw => hinf w (groupWinners_sub hw)) fn c h)
  exact hP e he fn c hfc

/-- C5: the resolution engine always selects the attempt with the
latest of three strictly increasing parseable timestamps; end to end,
collecting the three `hacker` attempts of `problem1` for `ps1` leaves
`submitted/hacker/ps1/` holding exactly `problem1.ipynb` with the
content of the 15:50:10 attempt and `timestamp.txt` containing
`2016-01-30 15:50:10`. -/
theorem attempt_resolution_latest :
    (∀ (a b c : Candidate) (ka kb kc : Nat),
      parseTimestamp a.info.timestamp = some ka →
      parseTimestamp b.info.timestamp = some kb →
      parseTimestamp c.info.timestamp = some kc →
      ka < kb → kb < kc →
      pickWinner [a, b, c] = some c) ∧
    zip_collect false false customCollector ["problem1"]
        [ .file "ps1_hacker_attempt_2016-01-30-15-30-10_problem1.ipynb" "nb30",
          .file "ps1_hacker_attempt_2016-01-30-15-40-10_problem1.ipynb" "nb40",
          .file "ps1_hacker_attempt_2016-01-30-15-50-10_problem1.ipynb" "nb50" ]
        ⟨none, []⟩
      = (none,
         ⟨some
            [ ("ps1_hacker_attempt_2016-01-30-15-30-10_problem1.ipynb", "nb30"),
              ("ps1_hacker_attempt_2016-01-30-15-40-10_problem1.ipynb", "nb40"),
              ("ps1_hacker_attempt_2016-01-30-15-50-10_problem1.ipynb", "nb50") ],
          [("hacker",
            [("problem1.ipynb", "nb50"),
             ("timestamp.txt", "2016-01-30 15:50:10")])]⟩) := by
  constructor
  · intro a b c ka kb kc ha hb hc h1 h2
    unfold pickWinner
    simp only [List.foldl]
    have s1 : pickStep none a = some a := rfl
    rw [s1]
    have s2 : pickStep (some a) b = some b := by
      unfold pickStep
      dsimp only
      rw [hb, ha]
      dsimp only
      rw [if_pos h1]
    rw [s2]
    unfold pickStep
    dsimp only
    rw [hc, hb]
    dsimp only
    rw [if_pos h2]
  · rfl

/-- Witness for `attempt_resolution_latest`: the three concrete attempts
of the end-to-end example, resolved by `pickWinner`. -/
theorem attempt_resolution_latest_witness :
    pickWinner
        [ ⟨⟨"hacker", "2016-01-30 15:30:10", "problem1"⟩, "nb30"⟩,
          ⟨⟨"hacker", "2016-01-30 15:40:10", "problem1"⟩, "nb40"⟩,
          ⟨⟨"hacker", "2016-01-30 15:50:10", "problem1"⟩, "nb50"⟩ ]
      = some ⟨⟨"hacker", "2016-01-30 15:50:10", "problem1"⟩, "nb50"⟩ :=
  attempt_resolution_latest.1
    ⟨⟨"hacker", "2016-01-30 15:30:10", "problem1"⟩, "nb30"⟩
    ⟨⟨"hacker", "2016-01-30 15:40:10", "problem1"⟩, "nb40"⟩
    ⟨⟨"hacker", "2016-01-30 15:50:10", "problem1"⟩, "nb50"⟩
    20160130153010 20160130154010 20160130155010
    rfl rfl rfl (by decide) (by decide)

/-- C2 counterexample: on a staging directory holding one submission
file, the first collection run succeeds, but the second run on the
unchanged staging directory (no force flag) terminates with the fatal
already-extracted error — not a non-fatal no-op with exit status zero —
while the on-disk contents stay identical. -/
theorem zip_collect_second_run_not_noop :
    (zip_collect false false customCollector ["problem1"]
        [.file "ps1_hacker_attempt_2016-01-30-15-30-10_problem1.ipynb" "nb"]
        ⟨none, []⟩).1 = none ∧
    (zip_collect false false customCollector ["problem1"]
        [.file "ps1_hacker_attempt_2016-01-30-15-30-10_problem1.ipynb" "nb"]
        (zip_collect false false customCollector ["problem1"]
          [.file "ps1_hacker_attempt_2016-01-30-15-30-10_problem1.ipynb" "nb"]
          ⟨none, []⟩).2).1 = some .alreadyExtracted ∧
    (zip_collect false false customCollector ["problem1"]
        [.file "ps1_hacker_attempt_2016-01-30-15-30-10_problem1.ipynb" "nb"]
        (zip_collect false false customCollector ["problem1"]
          [.file "ps1_hacker_attempt_2016-01-30-15-30-10_problem1.ipynb" "nb"]
          ⟨none, []⟩).2).2
      = (zip_collect false false customCollector ["problem1"]
          [.file "ps1_hacker_attempt_2016-01-30-15-30-10_problem1.ipynb" "nb"]
          ⟨none, []⟩).2 :=
  ⟨rfl, rfl, rfl⟩

/-- C2 (amended): re-running the collection pipeline on an unchanged,
non-empty staging directory without `--force` leaves the canonical-tree
contents identical to a single run (the state is untouched), but the
second run terminates with the fatal already-extracted error instead of
a non-fatal no-op. -/
theorem zip_collect_rerun_unchanged (strict : Bool)
    (collect : String → Option CollectedInfo) (released : List String)
    (archive : List AEntry) (st st1 : ZCState)
    (hne : archive ≠ [])
    (hrun : zip_collect false strict collect released archive st
      = (none, st1)) :
    zip_collect false strict collect released archive st1
      = (some .alreadyExtracted, st1) := by
  have hemp : archive.isEmpty = false := by
    cases archive with
    | nil => exact absurd rfl hne
    | cons a l => rfl
  unfold zip_collect at hrun
  cases hex : extractStep false archive st with
  | error e =>
    rw [hex] at hrun
    simp at hrun
  | ok files =>
    rw [hex] at hrun
    dsimp only at hrun
    have h1 : st1
        = ⟨some files, collectStep strict collect released files st.submitted⟩ :=
      ((Prod.mk.injEq _ _ _ _).mp hrun).2.symm
    subst h1
    unfold zip_collect extractStep
    rw [hemp]
    simp

/-- Witness for `zip_collect_rerun_unchanged`: the concrete one-file
staging directory of the tests. -/
theorem zip_collect_rerun_unchanged_witness :
    zip_collect false false customCollector ["problem1"]
        [.file "ps1_hacker_attempt_2016-01-30-15-30-10_problem1.ipynb" "nb"]
        (zip_collect false false customCollector ["problem1"]
          [.file "ps1_hacker_attempt_2016-01-30-15-30-10_problem1.ipynb" "nb"]
          ⟨none, []⟩).2
      = (some .alreadyExtracted,
         (zip_collect false false customCollector ["problem1"]
           [.file "ps1_hacker_attempt_2016-01-30-15-30-10_problem1.ipynb" "nb"]
           ⟨none, []⟩).2) :=
  zip_collect_rerun_unchanged false customCollector ["problem1"]
    [.file "ps1_hacker_attempt_2016-01-30-15-30-10_problem1.ipynb" "nb"]
    ⟨none, []⟩ _ (by decide) rfl

/-- C9 counterexample: a collected file whose name is recognized by the
collector but whose file id (`myproblem1`) is not a released notebook:
the `--strict` run exits successfully (status zero, not non-zero), and
the run WITHOUT `--strict` collects the file into the canonical tree
instead of silently skipping it. -/
theorem zip_collect_strict_counterexample :
    (zip_collect false true fileNameCollector ["problem1"]
        [ .file "ps1_hacker_attempt_2016-01-30-15-30-10_myproblem1.ipynb" "nbA",
          .file "ps1_hacker_attempt_2016-01-30-15-30-10_problem1.ipynb" "nbB" ]
        ⟨none, []⟩).1 = none ∧
    (zip_collect false true fileNameCollector ["problem1"]
        [ .file "ps1_hacker_attempt_2016-01-30-15-30-10_myproblem1.ipynb" "nbA",
          .file "ps1_hacker_attempt_2016-01-30-15-30-10_problem1.ipynb" "nbB" ]
        ⟨none, []⟩).2.submitted
      = [("hacker",
          [("problem1.ipynb", "nbB"),
           ("timestamp.txt", "2016-01-30-15-30-10")])] ∧
    (zip_collect false false fileNameCollector ["problem1"]
        [.file "ps1_hacker_attempt_2016-01-30-15-30-10_myproblem1.ipynb" "nbA"]
        ⟨none, []⟩).2.submitted
      = [("hacker",
          [("myproblem1.ipynb", "nbA"),
           ("timestamp.txt", "2016-01-30-15-30-10")])] :=
  ⟨rfl, rfl, rfl⟩

/-- C9 (amended): under `--strict`, a recognized file whose file id is
not a released notebook is skipped while the run still exits zero (on a
fresh extraction): every notebook materialized under `--strict` is a
released one (or the sidecar `timestamp.txt`); without `--strict` such
a file is collected like any recognized file. -/
theorem zip_collect_strict_policy (collect : String → Option CollectedInfo)
    (released : List String) (archive : List AEntry) (hne : archive ≠ []) :
    (zip_collect false true collect released archive ⟨none, []⟩).1 = none ∧
    (∀ sid d,
      (sid, d) ∈ (zip_collect false true collect released archive
        ⟨none, []⟩).2.submitted →
      ∀ fn c, (fn, c) ∈ d →
        fn = "timestamp.txt"
          ∨ ∃ fid, released.contains fid = true ∧ fn = fid ++ ".ipynb") ∧
    (zip_collect false false fileNameCollector ["problem1"]
        [.file "ps1_hacker_attempt_2016-01-30-15-30-10_myproblem1.ipynb" "nbA"]
        ⟨none, []⟩).2.submitted
      = [("hacker",
          [("myproblem1.ipynb", "nbA"),
           ("timestamp.txt", "2016-01-30-15-30-10")])] := by
  have hemp : archive.isEmpty = false := by
    cases archive with
    | nil => exact absurd rfl hne
    | cons a l => rfl
  have hex : extractStep false archive ⟨none, []⟩
      = .ok (flattenEntries archive) := by
    unfold extractStep
    rw [hemp]
    simp
  have hrw : zip_collect false true collect released archive ⟨none, []⟩
      = (none,
         ⟨some (flattenEntries archive),
          collectStep true collect released (flattenEntries archive) []⟩) := by
    unfold zip_collect
    rw [hex]
  refine ⟨?_, ?_, rfl⟩
  · rw [hrw]
  · intro sid d hmem fn c hfc
    rw [hrw] at hmem
    exact collectStep_strict_shape collect released (flattenEntries archive)
      (sid, d) hmem fn c hfc

/-- Witness for `zip_collect_strict_policy`: the two-file staging
directory of `test_collect_invalid_notebook`. -/
theorem zip_collect_strict_policy_witness :
    (zip_collect false true fileNameCollector ["problem1"]
        [ .file "ps1_hacker_attempt_2016-01-30-15-30-10_myproblem1.ipynb" "nbA",
          .file "ps1_hacker_attempt_2016-01-30-15-30-10_problem1.ipynb" "nbB" ]
        ⟨none, []⟩).1 = none :=
  (zip_collect_strict_policy fileNameCollector ["problem1"]
    [ .file "ps1_hacker_attempt_2016-01-30-15-30-10_myproblem1.ipynb" "nbA",
      .file "ps1_hacker_attempt_2016-01-30-15-30-10_problem1.ipynb" "nbB" ]
    (by decide)).1

end Nbgrader
